import Mathlib

/-!
Verification of the rag-query service core (services/rag-query/src).

The Python source is shallowly embedded: pure helpers of `query_engine.py`
become Lean functions over `Rat` (Python float arithmetic is modelled by
exact rational arithmetic), the Qdrant point store is modelled as a
`List Msg` in scroll order, and the effectful provisioning pipeline of
`artifact_loader.py` becomes a pure function from an environment record to
a stage trace plus an `Except` outcome.
-/

/-! ### Dates

Embeds the subset of `datetime.date` used by `query_engine.py`:
`datetime.strptime(s, "%Y-%m-%d").date()`, `date.toordinal` (proleptic
Gregorian), and subtraction of dates in days.
-/

/-- Calendar date, mirroring a Python `datetime.date` value. -/
structure Date where
  year : Nat
  month : Nat
  day : Nat
deriving DecidableEq, Repr

/-- Gregorian leap-year rule, as in Python `calendar.isleap`. -/
def isLeapYear (y : Nat) : Bool :=
  (y % 4 == 0 && y % 100 != 0) || (y % 400 == 0)

/-- Days in the months before month `m` (1-based) of a non-leap year. -/
def daysBeforeMonth (m : Nat) : Nat :=
  [0, 0, 31, 59, 90, 120, 151, 181, 212, 243, 273, 304, 334].getD m 0

/-- Length of month `m` of year `y`, as validated by `datetime.date`. -/
def daysInMonth (y m : Nat) : Nat :=
  if m = 2 then (if isLeapYear y then 29 else 28)
  else if m = 4 ∨ m = 6 ∨ m = 9 ∨ m = 11 then 30
  else 31

/-- Proleptic Gregorian ordinal of a date (day 1 is 0001-01-01), the
formula behind Python `date.toordinal`; date subtraction in days is the
difference of ordinals. -/
def Date.toOrdinal (d : Date) : Int :=
  let y := d.year - 1
  ((365 * y + y / 4 + y / 400 - y / 100
      + daysBeforeMonth d.month
      + (if isLeapYear d.year && decide (2 < d.month) then 1 else 0)
      + d.day : Nat) : Int)

/-- ASCII decimal digit test (Python `\d` restricted to ASCII; the model
does not reproduce the Unicode-digit corner of `re`). -/
def isAsciiDigit (c : Char) : Bool :=
  '0' ≤ c && c ≤ '9'

/-- Numeric value of a digit string, as Python `int` on the matched field. -/
def digitsToNat (l : List Char) : Nat :=
  l.foldl (fun acc c => 10 * acc + (c.toNat - 48)) 0

/-- Split a character list on the dash character, keeping empty pieces,
as Python `str.split` with a single-character separator. -/
def splitDash : List Char → List Char → List (List Char)
  | [], acc => [acc.reverse]
  | c :: cs, acc =>
    if c = '-' then acc.reverse :: splitDash cs []
    else splitDash cs (c :: acc)

/-- Embeds `datetime.strptime(s, "%Y-%m-%d").date()` for ASCII input:
`%Y` is exactly four digits, `%m` and `%d` are one or two digits whose
values lie in the ranges accepted by the strptime patterns, and
`datetime.date` then validates the day against the month length and
rejects year zero.  A failed parse is `none` (the Python `ValueError`). -/
def parseDate (s : String) : Option Date :=
  match splitDash s.toList [] with
  | [yc, mc, dc] =>
    if yc.length = 4 ∧ yc.all isAsciiDigit
        ∧ 1 ≤ mc.length ∧ mc.length ≤ 2 ∧ mc.all isAsciiDigit
        ∧ 1 ≤ dc.length ∧ dc.length ≤ 2 ∧ dc.all isAsciiDigit then
      let y := digitsToNat yc
      let m := digitsToNat mc
      let d := digitsToNat dc
      if 1 ≤ y ∧ 1 ≤ m ∧ m ≤ 12 ∧ 1 ≤ d ∧ d ≤ daysInMonth y m then
        some ⟨y, m, d⟩
      else none
    else none
  | _ => none

/-! ### Tokenizer and scorers (query_engine.py lines 31, 85-106) -/

/-- ASCII lowering of one character, as Python `str.lower` acts on the
ASCII range (the only range relevant to the ASCII-only token class). -/
def lowerChar (c : Char) : Char :=
  if 'A' ≤ c && c ≤ 'Z' then Char.ofNat (c.toNat + 32) else c

/-- Embeds Python `str.lower`: characterwise lowering. -/
def lowerStr (s : String) : String :=
  String.mk (s.toList.map lowerChar)

/-- Membership in the character class of `TOKEN_RE = [a-z0-9#@._-]+`. -/
def isTokenChar (c : Char) : Bool :=
  ('a' ≤ c && c ≤ 'z') || ('0' ≤ c && c ≤ '9')
    || c == '#' || c == '@' || c == '.' || c == '_' || c == '-'

/-- Accumulator for `findTokens`: collects maximal runs of token
characters, the behaviour of `TOKEN_RE.findall`. -/
def tokenRuns : List Char → List Char → List String
  | [], acc => if acc.isEmpty then [] else [String.mk acc.reverse]
  | c :: cs, acc =>
    if isTokenChar c then tokenRuns cs (c :: acc)
    else if acc.isEmpty then tokenRuns cs []
    else String.mk acc.reverse :: tokenRuns cs []

/-- Embeds `TOKEN_RE.findall(s)`: the maximal runs of characters from the
class `[a-z0-9#@._-]` in `s`, in order. -/
def findTokens (s : String) : List String :=
  tokenRuns s.toList []

/-- Embeds `_keyword_terms` (line 85): `set(TOKEN_RE.findall(query.lower()))`. -/
def keyword_terms (query : String) : Finset String :=
  (findTokens (lowerStr query)).toFinset

/-- Embeds `_keyword_overlap` (lines 89-96): share of query tokens that
occur among the tokens of `text`, with early exits for an empty query
token set and for a token-free text. -/
def keyword_overlap (query_terms : Finset String) (text : String) : ℚ :=
  if query_terms = ∅ then 0
  else
    let text_terms := (findTokens (lowerStr text)).toFinset
    if text_terms = ∅ then 0
    else ((query_terms ∩ text_terms).card : ℚ) / (query_terms.card : ℚ)

/-- Embeds `_recency_boost` (lines 99-106), with `date.today()` passed in
as the parameter `today`.  The age in days is the ordinal difference,
clamped to `[0, 3650]`; an unparseable date yields `0`. -/
def recency_boost (today : Date) (date_str : String) : ℚ :=
  match parseDate date_str with
  | none => 0
  | some d =>
    let age : Int := today.toOrdinal - d.toOrdinal
    let clamped : Int := max 0 (min age 3650)
    1 - (clamped : ℚ) / 3650

/-! ### Date range filter (query_engine.py lines 109-111, 259-267) -/

/-- Ordinal of the Unix epoch day 1970-01-01. -/
def epochOrdinal : Int :=
  Date.toOrdinal ⟨1970, 1, 1⟩

/-- Embeds `_date_to_unix` (lines 109-111) on an already-parsed
`YYYY-MM-DD` date: the POSIX timestamp of `T00:00:00+00:00` on that day,
or of `T23:59:59+00:00` when `end_of_day` is set. -/
def date_to_unix (d : Date) (end_of_day : Bool) : Int :=
  (d.toOrdinal - epochOrdinal) * 86400 + (if end_of_day then 86399 else 0)

/-- Predicate applied to a message timestamp by the `ts_float` range
condition that `search_messages` builds (lines 259-267): `gte` is the
start of day of `start_date`, `lte` the end of day of `end_date`, each
omitted when the corresponding filter is absent.  The conjunction of the
`gte` and `lte` comparisons is the documented semantics of the vector
store `Range` condition. -/
def dateFilterPred (start_date end_date : Option Date) (ts : ℚ) : Bool :=
  (match start_date with
   | some d => decide ((date_to_unix d false : ℚ) ≤ ts)
   | none => true)
  && (match end_date with
      | some d => decide (ts ≤ (date_to_unix d true : ℚ))
      | none => true)

/-! ### Message store model (query_engine.py lines 114-324)

A Qdrant point payload is modelled as a `Msg`; the collection is a
`List Msg` in scroll order.  The paged scroll loops of
`_get_source_window` and `get_thread_messages` accumulate every matching
point in scroll order, so they are modelled by `List.filter` over the
store (plus the running cap for the thread loop).  The derived payload
fields `channel_lower` and `user_name_lower` are the lowercased forms of
`channel` and `user_name`.
-/

/-- Payload of one indexed message (one Qdrant point). -/
structure Msg where
  channel : String
  date : String
  ts : String
  ts_float : ℚ
  thread_ts : String
  user_id : String
  user_name : String
  text : String
  source_file : String
  message_index : Int
  permalink : String
  is_reply : Bool
deriving DecidableEq, Repr

/-- Fields copied into a context-window entry (lines 169-177). -/
structure ContextMessage where
  channel : String
  date : String
  ts : String
  user_name : String
  text : String
deriving DecidableEq, Repr

/-- Projection of a payload onto the context-window fields. -/
def Msg.toContext (m : Msg) : ContextMessage :=
  ⟨m.channel, m.date, m.ts, m.user_name, m.text⟩

/-- Sort key relation of `sorted(points, key=message_index)` (line 152). -/
def idxLe (a b : Msg) : Prop :=
  a.message_index ≤ b.message_index

instance : DecidableRel idxLe :=
  fun a b => inferInstanceAs (Decidable (a.message_index ≤ b.message_index))

instance : IsTotal Msg idxLe :=
  ⟨fun a b => le_total a.message_index b.message_index⟩

instance : IsTrans Msg idxLe :=
  ⟨fun _ _ _ h1 h2 => le_trans h1 h2⟩

/-- Sort key relation of `sorted(points, key=ts_float)` (line 226). -/
def tsLe (a b : Msg) : Prop :=
  a.ts_float ≤ b.ts_float

instance : DecidableRel tsLe :=
  fun a b => inferInstanceAs (Decidable (a.ts_float ≤ b.ts_float))

instance : IsTotal Msg tsLe :=
  ⟨fun a b => le_total a.ts_float b.ts_float⟩

instance : IsTrans Msg tsLe :=
  ⟨fun _ _ _ h1 h2 => le_trans h1 h2⟩

/-- Embeds the locating loop of `_get_source_window` (lines 155-159):
the position of the first element whose `message_index` equals the
target, `none` when no element matches. -/
def locateIndex (target : Int) : List Msg → Option Nat
  | [] => none
  | m :: rest =>
    if m.message_index = target then some 0
    else (locateIndex target rest).map (· + 1)

/-- Embeds `_get_source_window` (lines 114-178): scroll all points of the
result's source file, sort them by `message_index` (Python `sorted` is
stable, as is `List.insertionSort`), locate the first point carrying the
result's own index, and slice `[pos - before, pos + after + 1)` clipped
to the bounds, projecting each point onto the context fields.  An empty
scroll or an unlocated index yields the empty list. -/
def get_source_window (store : List Msg) (source_file : String)
    (message_index : Int) (before after : Nat) : List ContextMessage :=
  let points := store.filter (fun m => m.source_file == source_file)
  if points.isEmpty then []
  else
    let ordered := points.insertionSort idxLe
    match locateIndex message_index ordered with
    | none => []
    | some pos =>
      let start := pos - before
      let stop := min ordered.length (pos + after + 1)
      ((ordered.drop start).take (stop - start)).map Msg.toContext

/-- Embeds `get_thread_messages` (lines 181-229): accumulate, in scroll
order, at most `cap = max(1, min(limit, 1000))` points whose
`channel_lower` equals the lowercased requested channel and whose
`thread_ts` equals the requested thread id, then sort them by `ts_float`
(stable sort). -/
def get_thread_messages (store : List Msg) (channel : String)
    (thread_ts : String) (limit : Nat) : List Msg :=
  let cap := max 1 (min limit 1000)
  let matching := store.filter
    (fun m => lowerStr m.channel == lowerStr channel && m.thread_ts == thread_ts)
  (matching.take cap).insertionSort tsLe

/-- One vector-search candidate: similarity score plus payload. -/
structure Hit where
  score : ℚ
  payload : Msg
deriving DecidableEq, Repr

/-- One entry of the list built by `search_messages`: combined score, raw
vector score, the payload fields, and the two enrichment sequences. -/
structure SearchItem where
  score : ℚ
  vector_score : ℚ
  msg : Msg
  context : List ContextMessage
  thread_preview : List Msg
deriving DecidableEq, Repr

/-- Descending-score relation of `rescored.sort(key=score, reverse=True)`
(line 305); Python `list.sort` is stable, so ties keep insertion order,
exactly as `List.insertionSort` with this relation. -/
def scoreGe (a b : SearchItem) : Prop :=
  b.score ≤ a.score

instance : DecidableRel scoreGe :=
  fun a b => inferInstanceAs (Decidable (b.score ≤ a.score))

instance : IsTotal SearchItem scoreGe :=
  ⟨fun a b => le_total b.score a.score⟩

instance : IsTrans SearchItem scoreGe :=
  ⟨fun _ _ _ h1 h2 => le_trans h2 h1⟩

/-- Embeds the rescoring of one candidate (lines 282-303): combined score
`vector + 0.20 * lexical + 0.05 * recency`, carrying the payload along;
the enrichment fields are filled in later. -/
def rescore (query_terms : Finset String) (today : Date) (hit : Hit) : SearchItem :=
  { score := hit.score + (0.20 : ℚ) * keyword_overlap query_terms hit.payload.text
      + (0.05 : ℚ) * recency_boost today hit.payload.date
    vector_score := hit.score
    msg := hit.payload
    context := []
    thread_preview := [] }

/-- Enrichment of one surviving result (lines 308-322). -/
def enrich (store : List Msg) (include_thread_context : Bool) (item : SearchItem) : SearchItem :=
  { item with
    context := get_source_window store item.msg.source_file item.msg.message_index 1 2
    thread_preview :=
      if include_thread_context then
        get_thread_messages store item.msg.channel item.msg.thread_ts 12
      else [] }

/-- Embeds `search_messages` (lines 232-324) from the point where the
vector search has produced its candidate list `raw_results`: clamp the
limit to `[1, 100]`, rescore every candidate, sort by combined score
descending (stable), truncate to the clamped limit, and enrich each
surviving result with its context window and thread preview. -/
def search_messages (store : List Msg) (today : Date) (query : String)
    (limit : Nat) (raw_results : List Hit) (include_thread_context : Bool) :
    List SearchItem :=
  let lim := max 1 (min limit 100)
  let query_terms := keyword_terms query
  let rescored := raw_results.map (rescore query_terms today)
  let top := (rescored.insertionSort scoreGe).take lim
  top.map (enrich store include_thread_context)

/-- Strips the enrichment fields of a result, for comparing the returned
results with the ranked candidate sequence. -/
def clearEnrich (item : SearchItem) : SearchItem :=
  { item with context := [], thread_preview := [] }

/-! ### Artifact provisioning pipeline (artifact_loader.py)

The pipeline is straight-line effectful code; it is embedded as a pure
function from an environment record (what the filesystem, configuration,
object store, decryption tool and hashing primitive would answer) to the
list of stages executed plus an `Except` outcome.  The module-global
`_ready` flag is set only on a successful return, so readiness after
provisioning is `Except.isOk` of the outcome.  The SHA-256 primitive
itself is the external `hashlib` library; its hex digest of the decrypted
file is the environment field `plaintextSha256`.
-/

/-- Stages of `load_artifact`; the first three perform network calls. -/
inductive Stage where
  | resolveLatest
  | fetchManifest
  | download
  | decrypt
  | verifyChecksum
  | extract
deriving DecidableEq, Repr

/-- Stages that touch the object store over the network. -/
def Stage.isNetwork : Stage → Bool
  | .resolveLatest => true
  | .fetchManifest => true
  | .download => true
  | _ => false

/-- Failure causes of `load_artifact` (each a `RuntimeError` in the
source, here carried with its diagnostic payload). -/
inductive LoadError where
  | missingCredentials
  | missingEncryptionKey
  | decryptionFailed (stderr : String)
  | checksumMismatch (expected actual : String)
  | qdrantPathMissing
  | statePathMissing
deriving DecidableEq, Repr

/-- Environment answering every question `load_artifact` asks of the
outside world. -/
structure LoadEnv where
  qdrantPathExists : Bool
  statePathExists : Bool
  accessKey : String
  secretKey : String
  encryptionKey : String
  version : String
  manifestSha256 : String
  decryptExitCode : Nat
  decryptStderr : String
  plaintextSha256 : String
  extractedQdrantExists : Bool
  extractedStateExists : Bool
deriving DecidableEq, Repr

/-- Post-extraction layout verification (lines 133-136). -/
def verifyLayout (trace : List Stage) (env : LoadEnv) :
    List Stage × Except LoadError Unit :=
  if !env.extractedQdrantExists then (trace, .error .qdrantPathMissing)
  else if !env.extractedStateExists then (trace, .error .statePathMissing)
  else (trace, .ok ())

/-- Embeds `load_artifact` (lines 28-144): the stages executed, in order,
and the outcome.  If both index paths already exist the function returns
at once; otherwise missing credentials or a missing encryption key abort
before any network call; version resolution contacts the store only for
the sentinel version `latest`; a non-zero decryption exit aborts with the
tool diagnostics; checksum verification runs only when the manifest
carries a digest and aborts on mismatch with both digests; extraction is
followed by layout verification. -/
def load_artifact (env : LoadEnv) : List Stage × Except LoadError Unit :=
  if env.qdrantPathExists && env.statePathExists then ([], .ok ())
  else if env.accessKey = "" ∨ env.secretKey = "" then ([], .error .missingCredentials)
  else if env.encryptionKey = "" then ([], .error .missingEncryptionKey)
  else
    let resolveTrace := if env.version = "latest" then [Stage.resolveLatest] else []
    let pre := resolveTrace ++ [Stage.fetchManifest, Stage.download, Stage.decrypt]
    if env.decryptExitCode ≠ 0 then
      (pre, .error (.decryptionFailed env.decryptStderr))
    else if env.manifestSha256 ≠ "" then
      if env.plaintextSha256 ≠ env.manifestSha256 then
        (pre ++ [Stage.verifyChecksum],
          .error (.checksumMismatch env.manifestSha256 env.plaintextSha256))
      else verifyLayout (pre ++ [Stage.verifyChecksum, Stage.extract]) env
    else verifyLayout (pre ++ [Stage.extract]) env

/-- Readiness flag after provisioning: `_ready` is assigned `True` only
on the successful return paths of `load_artifact` (lines 38 and 144); an
exception leaves it `False` (`main.py` catches startup exceptions and the
service stays not ready). -/
def readyAfter (env : LoadEnv) : Bool :=
  (load_artifact env).2.toBool

/-! ### Query endpoint (main.py lines 82-121)

The handler is embedded as a function of the readiness flag and of the
outcome of the `search_messages` call (a raised exception is
`Except.error`); the handler wraps the search outcome without any
exception handler of its own, so a search failure propagates out of the
handler (`Except.error` in the result) instead of becoming a response.
-/

/-- Request-level failures that `search_messages` can raise: the
embedding sidecar call (lines 75-82 of query_engine.py) or the vector
store query. -/
inductive RequestError where
  | embeddingUnavailable (message : String)
  | vectorStoreUnavailable (message : String)
deriving DecidableEq, Repr

/-- Body of the `/query` response model. -/
structure QueryResponse where
  ok : Bool
  results : List SearchItem
  count : Nat
  query : String
deriving DecidableEq, Repr

/-- Embeds the `/query` handler (main.py lines 82-121): a not-ready
service answers `ok := false` with no results; otherwise the handler runs
the search and builds the `ok := true` response, with no `try` around the
search call, so a raised `RequestError` propagates. -/
def queryEndpoint (ready : Bool) (searchOutcome : Except RequestError (List SearchItem))
    (q : String) : Except RequestError QueryResponse :=
  if !ready then .ok { ok := false, results := [], count := 0, query := q }
  else
    match searchOutcome with
    | .error e => .error e
    | .ok results => .ok { ok := true, results := results, count := results.length, query := q }

/-! ### Concrete sample data, used to instantiate the theorems below -/

/-- Sample message with an unparseable date field. -/
def plainMsg : Msg :=
  { channel := "General", date := "", ts := "", ts_float := 0, thread_ts := "t"
    user_id := "U1", user_name := "Riley", text := "hello", source_file := "f.json"
    message_index := 0, permalink := "", is_reply := false }

/-- Sample vector-search hit carrying `plainMsg`. -/
def sampleHit : Hit :=
  { score := 1, payload := plainMsg }

/-- Message number `i` of the sample source file. -/
def fileMsg (i : Nat) : Msg :=
  { channel := "General", date := "", ts := "", ts_float := (i : ℚ), thread_ts := "t"
    user_id := "U1", user_name := "Riley", text := "m", source_file := "f.json"
    message_index := (i : Int), permalink := "", is_reply := false }

/-- Ten consecutive messages of one source file, in scroll order. -/
def fileStore : List Msg :=
  (List.range 10).map fileMsg

/-- The single result of a search over the empty store whose only
candidate is `sampleHit`. -/
def sampleResult : SearchItem :=
  enrich [] false (rescore (keyword_terms "") ⟨2024, 1, 1⟩ sampleHit)

/-- The single result of a search over `fileStore` without thread
context, whose only candidate is `sampleHit`. -/
def threadResult : SearchItem :=
  enrich fileStore false (rescore (keyword_terms "") ⟨2024, 1, 1⟩ sampleHit)

/-! ### Helper lemmas -/

/-- Characterization of the locating loop: if position `i` carries the
target index and no earlier position does, the loop stops at `i`. -/
theorem locateIndex_eq_some (target : Int) :
    ∀ (l : List Msg) (i : Nat) (hi : i < l.length),
      (l.get ⟨i, hi⟩).message_index = target →
      (∀ j (hj : j < i), (l.get ⟨j, Nat.lt_trans hj hi⟩).message_index ≠ target) →
      locateIndex target l = some i := by
  intro l
  induction l with
  | nil =>
    intro i hi
    exact absurd hi (Nat.not_lt_zero i)
  | cons m rest ih =>
    intro i hi h1 h2
    cases i with
    | zero =>
      have h1m : m.message_index = target := h1
      simp only [locateIndex]
      rw [if_pos h1m]
    | succ n =>
      have hm : m.message_index ≠ target := h2 0 (Nat.succ_pos n)
      simp only [locateIndex]
      rw [if_neg hm]
      rw [ih n (Nat.lt_of_succ_lt_succ hi) h1
        (fun j hj => h2 (j + 1) (Nat.succ_lt_succ hj))]
      rfl

/-- Characterization of the locating loop: if no element carries the
target index the loop reports `none`. -/
theorem locateIndex_eq_none (target : Int) (l : List Msg)
    (h : ∀ m ∈ l, m.message_index ≠ target) : locateIndex target l = none := by
  induction l with
  | nil => rfl
  | cons m rest ih =>
    simp only [locateIndex]
    rw [if_neg (h m (List.mem_cons_self m rest))]
    rw [ih (fun x hx => h x (List.mem_cons_of_mem m hx))]
    rfl

/-- Stability of the descending-score sort: within each score class the
sorted list keeps exactly the original sequence of elements, the
behaviour of the stable Python `list.sort`. -/
theorem insertionSort_score_stable (l : List SearchItem) (c : ℚ) :
    ((l.insertionSort scoreGe).filter fun x => decide (x.score = c))
      = l.filter fun x => decide (x.score = c) := by
  induction l with
  | nil => rfl
  | cons a l ih =>
    simp only [List.insertionSort]
    rw [List.orderedInsert_eq_take_drop, List.filter_append]
    by_cases hpa : a.score = c
    · have hskip : (((List.insertionSort scoreGe l).takeWhile
          fun b => decide ¬scoreGe a b).filter fun x => decide (x.score = c)) = [] := by
        rw [List.filter_eq_nil_iff]
        intro b hb
        have h1 := List.mem_takeWhile_imp hb
        simp only [decide_eq_true_eq] at h1
        have h2 : a.score < b.score := not_le.mp h1
        simp only [decide_eq_true_eq]
        intro hbc
        rw [hbc, hpa] at h2
        exact lt_irrefl c h2
      have hsplit : ((List.insertionSort scoreGe l).filter fun x => decide (x.score = c))
          = (((List.insertionSort scoreGe l).takeWhile
                fun b => decide ¬scoreGe a b).filter fun x => decide (x.score = c))
            ++ (((List.insertionSort scoreGe l).dropWhile
                fun b => decide ¬scoreGe a b).filter fun x => decide (x.score = c)) := by
        rw [← List.filter_append, List.takeWhile_append_dropWhile]
      rw [hskip, List.nil_append]
      rw [List.filter_cons_of_pos (by simpa using hpa),
        List.filter_cons_of_pos (by simpa using hpa)]
      have hdrop : (((List.insertionSort scoreGe l).dropWhile
            fun b => decide ¬scoreGe a b).filter fun x => decide (x.score = c))
          = l.filter fun x => decide (x.score = c) := by
        rw [← ih, hsplit, hskip, List.nil_append]
      rw [hdrop]
    · rw [List.filter_cons_of_neg (by simpa using hpa),
        List.filter_cons_of_neg (by simpa using hpa)]
      rw [← List.filter_append, List.takeWhile_append_dropWhile]
      exact ih

theorem keyword_overlap_nonneg (q : Finset String) (t : String) :
    0 ≤ keyword_overlap q t := by
  simp only [keyword_overlap]
  split_ifs <;> positivity

theorem keyword_overlap_le_one (q : Finset String) (t : String) :
    keyword_overlap q t ≤ 1 := by
  simp only [keyword_overlap]
  split_ifs
  · norm_num
  · norm_num
  · refine div_le_one_of_le₀ ?_ (by positivity)
    exact_mod_cast Finset.card_le_card Finset.inter_subset_left

theorem recency_boost_nonneg (today : Date) (s : String) :
    0 ≤ recency_boost today s := by
  unfold recency_boost
  cases hp : parseDate s with
  | none => norm_num
  | some d =>
    have hc1 : max 0 (min (today.toOrdinal - d.toOrdinal) 3650) ≤ (3650 : Int) :=
      max_le (by norm_num) (min_le_right _ _)
    have : ((max 0 (min (today.toOrdinal - d.toOrdinal) 3650) : Int) : ℚ) ≤ 3650 := by
      exact_mod_cast hc1
    simp only
    rw [sub_nonneg]
    exact div_le_one_of_le₀ this (by norm_num)

theorem recency_boost_le_one (today : Date) (s : String) :
    recency_boost today s ≤ 1 := by
  unfold recency_boost
  cases hp : parseDate s with
  | none => norm_num
  | some d =>
    have hc0 : (0 : Int) ≤ max 0 (min (today.toOrdinal - d.toOrdinal) 3650) :=
      le_max_left _ _
    have : (0 : ℚ) ≤ ((max 0 (min (today.toOrdinal - d.toOrdinal) 3650) : Int) : ℚ) := by
      exact_mod_cast hc0
    simp only
    have hdiv : (0 : ℚ) ≤ ((max 0 (min (today.toOrdinal - d.toOrdinal) 3650) : Int) : ℚ) / 3650 :=
      div_nonneg this (by norm_num)
    linarith

/-- C6: for every query text and candidate text, with tokens the maximal
runs of characters from the class `[a-z0-9#@._-]` over the lowercased
strings, the lexical overlap equals the number of shared tokens divided
by the number of query tokens; it is `0` when the query has no tokens,
`0` when the candidate text has no tokens, and `1` when every query token
occurs among the candidate tokens. -/
theorem keyword_overlap_spec (query text : String) :
    keyword_overlap (keyword_terms query) text
        = ((keyword_terms query ∩ (findTokens (lowerStr text)).toFinset).card : ℚ)
          / ((keyword_terms query).card : ℚ)
      ∧ (keyword_terms query = ∅ → keyword_overlap (keyword_terms query) text = 0)
      ∧ ((findTokens (lowerStr text)).toFinset = ∅ →
          keyword_overlap (keyword_terms query) text = 0)
      ∧ (keyword_terms query ≠ ∅ →
          keyword_terms query ⊆ (findTokens (lowerStr text)).toFinset →
          keyword_overlap (keyword_terms query) text = 1) := by
  refine ⟨?_, ?_, ?_, ?_⟩
  · unfold keyword_overlap
    by_cases hq : keyword_terms query = ∅
    · simp [hq]
    · by_cases ht : (findTokens (lowerStr text)).toFinset = ∅
      · simp [hq, ht]
      · simp [hq, ht]
  · intro hq
    simp [keyword_overlap, hq]
  · intro ht
    simp [keyword_overlap, ht]
  · intro hq hsub
    have ht : (findTokens (lowerStr text)).toFinset ≠ ∅ := by
      intro h
      rw [h] at hsub
      exact hq (Finset.subset_empty.mp hsub)
    have hcard : (((keyword_terms query).card : ℚ)) ≠ 0 := by
      exact_mod_cast Finset.card_ne_zero.mpr (Finset.nonempty_iff_ne_empty.mpr hq)
    simp [keyword_overlap, hq, ht, Finset.inter_eq_left.mpr hsub, div_self hcard]

/-- Witness for C6 at a concrete query and text: every query token of
"deploy failed" occurs in "The deploy has FAILED today", so the overlap
is exactly one. -/
theorem keyword_overlap_spec_witness :
    keyword_terms "deploy failed" ≠ ∅
      ∧ keyword_terms "deploy failed"
          ⊆ (findTokens (lowerStr "The deploy has FAILED today")).toFinset
      ∧ keyword_overlap (keyword_terms "deploy failed") "The deploy has FAILED today" = 1 :=
  ⟨by decide, by decide,
    (keyword_overlap_spec "deploy failed" "The deploy has FAILED today").2.2.2
      (by decide) (by decide)⟩

/-- C5: for every date string, the recency boost is the clamped linear
decay `1 - clamp(age, 0, 3650) / 3650` when the string parses as
`YYYY-MM-DD` (so exactly `1` for a message dated today and exactly `0`
for one at least 3650 days old), and `0` when the string does not parse,
with no error raised. -/
theorem recency_boost_spec (today : Date) (s : String) :
    (∀ d : Date, parseDate s = some d →
        recency_boost today s
            = 1 - ((max 0 (min (today.toOrdinal - d.toOrdinal) 3650) : Int) : ℚ) / 3650
          ∧ (d = today → recency_boost today s = 1)
          ∧ (3650 ≤ today.toOrdinal - d.toOrdinal → recency_boost today s = 0))
      ∧ (parseDate s = none → recency_boost today s = 0) := by
  constructor
  · intro d hd
    have hb : recency_boost today s
        = 1 - ((max 0 (min (today.toOrdinal - d.toOrdinal) 3650) : Int) : ℚ) / 3650 := by
      simp [recency_boost, hd]
    refine ⟨hb, ?_, ?_⟩
    · intro h
      subst h
      rw [hb, sub_self]
      have h0 : (max 0 (min (0 : Int) 3650) : Int) = 0 := by decide
      rw [h0]
      norm_num
    · intro h
      rw [hb, min_eq_right h]
      have h0 : (max 0 (3650 : Int) : Int) = 3650 := by decide
      rw [h0]
      norm_num
  · intro h
    simp [recency_boost, h]

/-- Witness for C5 at concrete dates: a message dated today has boost
one, a message 3650 days earlier has boost zero, and an unparseable date
has boost zero. -/
theorem recency_boost_spec_witness :
    parseDate "2024-03-05" = some ⟨2024, 3, 5⟩
      ∧ recency_boost ⟨2024, 3, 5⟩ "2024-03-05" = 1
      ∧ recency_boost ⟨2034, 3, 3⟩ "2024-03-05" = 0
      ∧ recency_boost ⟨2024, 3, 5⟩ "05-03-2024" = 0 :=
  ⟨by decide,
    ((recency_boost_spec ⟨2024, 3, 5⟩ "2024-03-05").1 ⟨2024, 3, 5⟩ (by decide)).2.1 rfl,
    ((recency_boost_spec ⟨2034, 3, 3⟩ "2024-03-05").1 ⟨2024, 3, 5⟩ (by decide)).2.2
      (by decide),
    (recency_boost_spec ⟨2024, 3, 5⟩ "05-03-2024").2 (by decide)⟩

/-- C7: a start or end date filter is translated to inclusive
epoch-second bounds, the start bound being the start of day UTC and the
end bound the end of day UTC: a message whose timestamp sits exactly on
the start-of-day bound of the start date passes the filter, one strictly
before it fails, and symmetrically a message exactly on the end-of-day
bound of the end date passes while one strictly after it fails. -/
theorem date_filter_spec (d1 d2 : Date) (ts : ℚ) :
    date_to_unix d1 false = (d1.toOrdinal - epochOrdinal) * 86400
      ∧ date_to_unix d2 true = (d2.toOrdinal - epochOrdinal) * 86400 + 86399
      ∧ dateFilterPred (some d1) none ((date_to_unix d1 false : Int) : ℚ) = true
      ∧ (ts < ((date_to_unix d1 false : Int) : ℚ) →
          ∀ e : Option Date, dateFilterPred (some d1) e ts = false)
      ∧ dateFilterPred none (some d2) ((date_to_unix d2 true : Int) : ℚ) = true
      ∧ (((date_to_unix d2 true : Int) : ℚ) < ts →
          ∀ s : Option Date, dateFilterPred s (some d2) ts = false)
      ∧ (((date_to_unix d1 false : Int) : ℚ) ≤ ((date_to_unix d2 true : Int) : ℚ) →
          dateFilterPred (some d1) (some d2) ((date_to_unix d1 false : Int) : ℚ) = true
            ∧ dateFilterPred (some d1) (some d2) ((date_to_unix d2 true : Int) : ℚ) = true) := by
  refine ⟨by simp [date_to_unix], by simp [date_to_unix], ?_, ?_, ?_, ?_, ?_⟩
  · simp [dateFilterPred]
  · intro h e
    cases e <;> simp [dateFilterPred, not_le.mpr h]
  · simp [dateFilterPred]
  · intro h s
    cases s <;> simp [dateFilterPred, not_le.mpr h]
  · intro h
    constructor <;> simp [dateFilterPred, h]

/-- Witness for C7 at concrete dates: the bounds for 2024-01-02 and
2024-01-03, boundary timestamps included and out-of-range timestamps
excluded. -/
theorem date_filter_spec_witness :
    dateFilterPred (some ⟨2024, 1, 2⟩) none ((1704153600 : Int) : ℚ) = true
      ∧ dateFilterPred (some ⟨2024, 1, 2⟩) none ((1704153599 : ℚ)) = false
      ∧ dateFilterPred none (some ⟨2024, 1, 3⟩) ((1704326399 : Int) : ℚ) = true
      ∧ dateFilterPred none (some ⟨2024, 1, 3⟩) ((1704326400 : ℚ)) = false := by
  have h := date_filter_spec ⟨2024, 1, 2⟩ ⟨2024, 1, 3⟩ (1704153599 : ℚ)
  have hstart : date_to_unix ⟨2024, 1, 2⟩ false = 1704153600 := by decide
  have h2 := date_filter_spec ⟨2024, 1, 2⟩ ⟨2024, 1, 3⟩ (1704326400 : ℚ)
  have hend : date_to_unix ⟨2024, 1, 3⟩ true = 1704326399 := by decide
  refine ⟨?_, ?_, ?_, ?_⟩
  · have := h.2.2.1
    rwa [hstart] at this
  · exact h.2.2.2.1 (by rw [hstart]; norm_num) none
  · have := h.2.2.2.2.1
    rwa [hend] at this
  · exact h2.2.2.2.2.2.1 (by rw [hend]; norm_num) none

/-- C4: a manifest without a plaintext digest skips checksum
verification; a manifest whose digest differs from the SHA-256 of the
decrypted plaintext makes provisioning abort with an error carrying both
digests, and the readiness flag stays false. -/
theorem checksum_verification_spec (env : LoadEnv) :
    (env.manifestSha256 = "" → Stage.verifyChecksum ∉ (load_artifact env).1)
      ∧ (¬(env.qdrantPathExists = true ∧ env.statePathExists = true) →
          env.accessKey ≠ "" → env.secretKey ≠ "" → env.encryptionKey ≠ "" →
          env.decryptExitCode = 0 → env.manifestSha256 ≠ "" →
          env.plaintextSha256 ≠ env.manifestSha256 →
          (load_artifact env).2
              = Except.error (LoadError.checksumMismatch env.manifestSha256 env.plaintextSha256)
            ∧ readyAfter env = false) := by
  constructor
  · intro h
    unfold load_artifact verifyLayout
    split_ifs <;> simp_all
  · intro hlocal hak hsk hek hdec hsha hneq
    have hb : (env.qdrantPathExists && env.statePathExists) ≠ true := by
      intro hx
      exact hlocal (by simpa using hx)
    have hcred : ¬(env.accessKey = "" ∨ env.secretKey = "") := by
      rintro (h | h) <;> [exact hak h; exact hsk h]
    have hmain : (load_artifact env).2
        = Except.error (LoadError.checksumMismatch env.manifestSha256 env.plaintextSha256) := by
      unfold load_artifact
      rw [if_neg hb, if_neg hcred, if_neg hek]
      simp [hdec, hsha, hneq]
    refine ⟨hmain, ?_⟩
    simp [readyAfter, hmain, Except.toBool, Except.isOk]

/-- Witness for C4: a concrete environment whose decryption succeeds but
whose plaintext digest differs from the manifest digest aborts with the
mismatch error and stays not ready, and a concrete environment without a
manifest digest never runs the checksum stage. -/
theorem checksum_verification_spec_witness :
    ((load_artifact
        { qdrantPathExists := false, statePathExists := false, accessKey := "AK"
          secretKey := "SK", encryptionKey := "passphrase", version := "7"
          manifestSha256 := "aabb", decryptExitCode := 0, decryptStderr := ""
          plaintextSha256 := "ccdd", extractedQdrantExists := true
          extractedStateExists := true }).2
        = Except.error (LoadError.checksumMismatch "aabb" "ccdd")
      ∧ readyAfter
          { qdrantPathExists := false, statePathExists := false, accessKey := "AK"
            secretKey := "SK", encryptionKey := "passphrase", version := "7"
            manifestSha256 := "aabb", decryptExitCode := 0, decryptStderr := ""
            plaintextSha256 := "ccdd", extractedQdrantExists := true
            extractedStateExists := true } = false)
      ∧ Stage.verifyChecksum ∉ (load_artifact
          { qdrantPathExists := false, statePathExists := false, accessKey := "AK"
            secretKey := "SK", encryptionKey := "passphrase", version := "latest"
            manifestSha256 := "", decryptExitCode := 0, decryptStderr := ""
            plaintextSha256 := "ccdd", extractedQdrantExists := true
            extractedStateExists := true }).1 :=
  ⟨(checksum_verification_spec _).2 (by simp) (by decide) (by decide) (by decide)
      rfl (by decide) (by decide),
    (checksum_verification_spec _).1 rfl⟩

/-- C8: when both the vector-index path and the relational-metadata path
already exist locally, provisioning executes no stage at all (in
particular no network call) and sets readiness to true. -/
theorem local_shortcut_spec (env : LoadEnv)
    (hq : env.qdrantPathExists = true) (hs : env.statePathExists = true) :
    load_artifact env = ([], Except.ok ()) ∧ readyAfter env = true := by
  have hb : (env.qdrantPathExists && env.statePathExists) = true := by
    simp [hq, hs]
  have ha : load_artifact env = ([], Except.ok ()) := by
    unfold load_artifact
    rw [if_pos hb]
  exact ⟨ha, by simp [readyAfter, ha, Except.toBool, Except.isOk]⟩

/-- Witness for C8: a concrete environment with both paths present and no
credentials configured still provisions with an empty stage trace and
readiness true. -/
theorem local_shortcut_spec_witness :
    load_artifact
        { qdrantPathExists := true, statePathExists := true, accessKey := ""
          secretKey := "", encryptionKey := "", version := "latest"
          manifestSha256 := "", decryptExitCode := 1, decryptStderr := "bad"
          plaintextSha256 := "", extractedQdrantExists := false
          extractedStateExists := false } = ([], Except.ok ())
      ∧ readyAfter
          { qdrantPathExists := true, statePathExists := true, accessKey := ""
            secretKey := "", encryptionKey := "", version := "latest"
            manifestSha256 := "", decryptExitCode := 1, decryptStderr := "bad"
            plaintextSha256 := "", extractedQdrantExists := false
            extractedStateExists := false } = true :=
  local_shortcut_spec _ rfl rfl

/-- C9 counterexample: with the service ready and the embedding call
failing, the `/query` handler propagates the raw exception out of the
handler instead of returning a well-formed not-ok response. -/
theorem query_failure_counterexample :
    queryEndpoint true
        (Except.error (RequestError.embeddingUnavailable "connection refused"))
        "deploy failed"
      = Except.error (RequestError.embeddingUnavailable "connection refused")
      ∧ (queryEndpoint true
          (Except.error (RequestError.embeddingUnavailable "connection refused"))
          "deploy failed").toBool = false :=
  ⟨rfl, rfl⟩

/-- C9 (amended): a not-ready service answers a well-formed `ok := false`
response; a ready service whose search raises propagates that exception
out of the handler unchanged (only that request is affected — the outcome
is a function of the request alone and readiness is not modified); a
ready service with a successful search answers `ok := true`. -/
theorem query_failure_amended (ready : Bool)
    (out : Except RequestError (List SearchItem)) (q : String) :
    (ready = false → queryEndpoint ready out q
        = Except.ok { ok := false, results := [], count := 0, query := q })
      ∧ (∀ e, ready = true → out = Except.error e →
          queryEndpoint ready out q = Except.error e)
      ∧ (∀ rs, ready = true → out = Except.ok rs →
          queryEndpoint ready out q
            = Except.ok { ok := true, results := rs, count := rs.length, query := q }) := by
  refine ⟨?_, ?_, ?_⟩
  · rintro rfl
    simp [queryEndpoint]
  · rintro e rfl rfl
    simp [queryEndpoint]
  · rintro rs rfl rfl
    simp [queryEndpoint]

/-- Witness for C9 (amended) at concrete requests: the not-ready
response, the propagated embedding failure, and a successful search. -/
theorem query_failure_amended_witness :
    queryEndpoint false (Except.ok []) "status"
        = Except.ok { ok := false, results := [], count := 0, query := "status" }
      ∧ queryEndpoint true
          (Except.error (RequestError.embeddingUnavailable "host down")) "status"
        = Except.error (RequestError.embeddingUnavailable "host down")
      ∧ queryEndpoint true (Except.ok []) "status"
        = Except.ok { ok := true, results := [], count := 0, query := "status" } :=
  ⟨(query_failure_amended false (Except.ok []) "status").1 rfl,
    (query_failure_amended true
        (Except.error (RequestError.embeddingUnavailable "host down")) "status").2.1
      _ rfl rfl,
    (query_failure_amended true (Except.ok []) "status").2.2 [] rfl rfl⟩

/-- C1: every candidate of the vector search is assigned the combined
score `vector_score + 0.20 * lexical_overlap + 0.05 * recency_boost`, the
candidates are sorted by combined score descending with ties kept in
their insertion order from the vector search (the returned sequence is a
permutation of the rescored candidates, sorted, and within every score
class identical to the original order), and at most `limit` results are
returned, namely the prefix of the sorted sequence. -/
theorem search_ranking_spec (store : List Msg) (today : Date) (query : String)
    (limit : Nat) (raw : List Hit) (itc : Bool) (hlim : 1 ≤ limit) :
    (∀ x ∈ search_messages store today query limit raw itc,
        x.score = x.vector_score
          + (0.20 : ℚ) * keyword_overlap (keyword_terms query) x.msg.text
          + (0.05 : ℚ) * recency_boost today x.msg.date)
      ∧ (search_messages store today query limit raw itc).Pairwise
          (fun a b => b.score ≤ a.score)
      ∧ (search_messages store today query limit raw itc).length ≤ limit
      ∧ (search_messages store today query limit raw itc).map clearEnrich
          = ((raw.map (rescore (keyword_terms query) today)).insertionSort scoreGe).take
              (max 1 (min limit 100))
      ∧ List.Perm
          ((raw.map (rescore (keyword_terms query) today)).insertionSort scoreGe)
          (raw.map (rescore (keyword_terms query) today))
      ∧ (∀ c : ℚ,
          ((raw.map (rescore (keyword_terms query) today)).insertionSort scoreGe).filter
              (fun x => decide (x.score = c))
            = (raw.map (rescore (keyword_terms query) today)).filter
                (fun x => decide (x.score = c))) := by
  have hsorted : List.Sorted scoreGe
      ((raw.map (rescore (keyword_terms query) today)).insertionSort scoreGe) :=
    List.sorted_insertionSort scoreGe _
  refine ⟨?_, ?_, ?_, ?_, List.perm_insertionSort scoreGe _,
    fun c => insertionSort_score_stable _ c⟩
  · intro x hx
    simp only [search_messages] at hx
    obtain ⟨y, hy, rfl⟩ := List.mem_map.mp hx
    have hy2 : y ∈ raw.map (rescore (keyword_terms query) today) := by
      have h1 := List.take_subset _ _ hy
      simpa using h1
    obtain ⟨hit, hhit, rfl⟩ := List.mem_map.mp hy2
    rfl
  · simp only [search_messages]
    refine List.pairwise_map.mpr ?_
    have h1 := List.Pairwise.sublist
      (List.take_sublist (max 1 (min limit 100))
        ((raw.map (rescore (keyword_terms query) today)).insertionSort scoreGe))
      hsorted
    exact h1.imp (fun h => h)
  · simp only [search_messages]
    rw [List.length_map, List.length_take]
    have h1 : max 1 (min limit 100) ≤ limit := by omega
    exact le_trans (min_le_left _ _) h1
  · simp only [search_messages]
    rw [List.map_map]
    have hid : ∀ y ∈ ((raw.map (rescore (keyword_terms query) today)).insertionSort
        scoreGe).take (max 1 (min limit 100)),
        (clearEnrich ∘ enrich store itc) y = id y := by
      intro y hy
      have hy2 : y ∈ raw.map (rescore (keyword_terms query) today) := by
        have h1 := List.take_subset _ _ hy
        simpa using h1
      obtain ⟨hit, hhit, rfl⟩ := List.mem_map.mp hy2
      rfl
    rw [List.map_congr_left hid, List.map_id]

/-- Witness for C1: with a positive limit the hypotheses hold, and the
returned result count respects the limit at a concrete search. -/
theorem search_ranking_spec_witness :
    1 ≤ 5
      ∧ (search_messages fileStore ⟨2024, 1, 1⟩ "deploy failed" 5
          [sampleHit] true).length ≤ 5 :=
  ⟨by decide,
    (search_ranking_spec fileStore ⟨2024, 1, 1⟩ "deploy failed" 5 [sampleHit] true
      (by decide)).2.2.1⟩

/-- C2: with the messages of a source file sorted by `message_index`
ascending and occupying positions `0` to `n - 1`, the context window of a
result located at position `p` is exactly the slice of positions
`max 0 (p - 1)` to `min (n - 1) (p + 2)` inclusive, projected onto the
context fields; a result whose `message_index` is not found among the
scanned messages gets an empty context rather than an error. -/
theorem source_window_spec (store : List Msg) (sf : String) (idx : Int) :
    (∀ (p : Nat)
        (hp : p < ((store.filter fun m => m.source_file == sf).insertionSort
            idxLe).length),
        (((store.filter fun m => m.source_file == sf).insertionSort idxLe).get
            ⟨p, hp⟩).message_index = idx →
        (∀ (q : Nat) (hq : q < p),
            (((store.filter fun m => m.source_file == sf).insertionSort idxLe).get
                ⟨q, Nat.lt_trans hq hp⟩).message_index ≠ idx) →
        get_source_window store sf idx 1 2
          = ((((store.filter fun m => m.source_file == sf).insertionSort
                idxLe).drop (p - 1)).take
              (min ((store.filter fun m => m.source_file == sf).insertionSort
                  idxLe).length (p + 2 + 1) - (p - 1))).map Msg.toContext)
      ∧ ((∀ m ∈ store, m.source_file = sf → m.message_index ≠ idx) →
          get_source_window store sf idx 1 2 = []) := by
  constructor
  · intro p hp h1 h2
    have hne : ¬(store.filter fun m => m.source_file == sf).isEmpty = true := by
      intro hA
      rw [List.isEmpty_iff] at hA
      rw [hA] at hp
      simp at hp
    have hloc := locateIndex_eq_some idx
      ((store.filter fun m => m.source_file == sf).insertionSort idxLe) p hp h1 h2
    simp only [get_source_window]
    rw [if_neg hne, hloc]
  · intro h
    by_cases he : (store.filter fun m => m.source_file == sf).isEmpty = true
    · simp only [get_source_window]
      rw [if_pos he]
    · have hloc : locateIndex idx
          ((store.filter fun m => m.source_file == sf).insertionSort idxLe) = none := by
        apply locateIndex_eq_none
        intro m hm
        have hm2 : m ∈ store.filter fun m => m.source_file == sf := by
          simpa using hm
        have hm3 := List.mem_filter.mp hm2
        exact h m hm3.1 (by simpa using hm3.2)
      simp only [get_source_window]
      rw [if_neg he, hloc]

/-- Witness for C2 on a ten-message source file: position 5 yields the
messages at positions 4 to 7, position 0 yields 0 to 2, position 9 yields
8 and 9, and an absent index yields the empty context. -/
theorem source_window_spec_witness :
    get_source_window fileStore "f.json" 5 1 2
        = [Msg.toContext (fileMsg 4), Msg.toContext (fileMsg 5),
            Msg.toContext (fileMsg 6), Msg.toContext (fileMsg 7)]
      ∧ get_source_window fileStore "f.json" 0 1 2
        = [Msg.toContext (fileMsg 0), Msg.toContext (fileMsg 1),
            Msg.toContext (fileMsg 2)]
      ∧ get_source_window fileStore "f.json" 9 1 2
        = [Msg.toContext (fileMsg 8), Msg.toContext (fileMsg 9)]
      ∧ get_source_window fileStore "f.json" 42 1 2 = [] :=
  ⟨((source_window_spec fileStore "f.json" 5).1 5 (by decide) (by decide)
      (by decide)).trans (by decide),
    ((source_window_spec fileStore "f.json" 0).1 0 (by decide) (by decide)
      (by decide)).trans (by decide),
    ((source_window_spec fileStore "f.json" 9).1 9 (by decide) (by decide)
      (by decide)).trans (by decide),
    (source_window_spec fileStore "f.json" 42).2 (by decide)⟩

/-- C3: a thread preview contains only messages matching the result's
channel case-insensitively and its `thread_ts` by string comparison, is
sorted by `ts_float` ascending, and holds at most 12 entries; with
`include_thread_context` false every result carries an empty thread
preview, and with it true every result carries exactly the capped thread
preview for its own channel and thread id. -/
theorem thread_preview_spec (store : List Msg) :
    (∀ channel thread_ts : String,
        (∀ m ∈ get_thread_messages store channel thread_ts 12,
            lowerStr m.channel = lowerStr channel ∧ m.thread_ts = thread_ts)
          ∧ (get_thread_messages store channel thread_ts 12).Pairwise
              (fun a b => a.ts_float ≤ b.ts_float)
          ∧ (get_thread_messages store channel thread_ts 12).length ≤ 12)
      ∧ (∀ (today : Date) (query : String) (limit : Nat) (raw : List Hit),
          (∀ x ∈ search_messages store today query limit raw false,
              x.thread_preview = [])
            ∧ (∀ x ∈ search_messages store today query limit raw true,
                x.thread_preview
                  = get_thread_messages store x.msg.channel x.msg.thread_ts 12)) := by
  constructor
  · intro channel thread_ts
    refine ⟨?_, ?_, ?_⟩
    · intro m hm
      simp only [get_thread_messages] at hm
      rw [List.mem_insertionSort] at hm
      have hm2 := List.take_subset _ _ hm
      have hm3 := List.mem_filter.mp hm2
      have := hm3.2
      simp only [Bool.and_eq_true, beq_iff_eq] at this
      exact this
    · exact List.sorted_insertionSort tsLe _
    · simp only [get_thread_messages]
      rw [List.length_insertionSort, List.length_take]
      exact le_trans (min_le_left _ _) (by decide)
  · intro today query limit raw
    constructor
    · intro x hx
      simp only [search_messages] at hx
      obtain ⟨y, hy, rfl⟩ := List.mem_map.mp hx
      rfl
    · intro x hx
      simp only [search_messages] at hx
      obtain ⟨y, hy, rfl⟩ := List.mem_map.mp hx
      rfl

/-- Witness for C3 at a concrete store: a member of a concrete thread
preview matches its channel case-insensitively and its thread id, the
preview length is within the cap, and a concrete result of a search
without thread context has an empty preview. -/
theorem thread_preview_spec_witness :
    (lowerStr (fileMsg 3).channel = lowerStr "GENERAL"
        ∧ (fileMsg 3).thread_ts = "t")
      ∧ (get_thread_messages fileStore "GENERAL" "t" 12).length ≤ 12
      ∧ threadResult.thread_preview = [] :=
  ⟨((thread_preview_spec fileStore).1 "GENERAL" "t").1 (fileMsg 3) (by decide),
    ((thread_preview_spec fileStore).1 "GENERAL" "t").2.2,
    ((thread_preview_spec fileStore).2 ⟨2024, 1, 1⟩ "" 5 [sampleHit]).1
      threadResult (List.mem_singleton_self threadResult)⟩

/-- C10: for every result returned by the search, the combined score lies
between the vector score and the vector score plus `0.25`, because the
lexical overlap and the recency boost each lie in `[0, 1]`. -/
theorem score_bounds_spec (store : List Msg) (today : Date) (query : String)
    (limit : Nat) (raw : List Hit) (itc : Bool) :
    ∀ x ∈ search_messages store today query limit raw itc,
      x.vector_score ≤ x.score ∧ x.score ≤ x.vector_score + (0.25 : ℚ) := by
  intro x hx
  simp only [search_messages] at hx
  obtain ⟨y, hy, rfl⟩ := List.mem_map.mp hx
  have hy2 : y ∈ raw.map (rescore (keyword_terms query) today) := by
    have h1 := List.take_subset _ _ hy
    simpa using h1
  obtain ⟨hit, hhit, rfl⟩ := List.mem_map.mp hy2
  have hL0 := keyword_overlap_nonneg (keyword_terms query) hit.payload.text
  have hL1 := keyword_overlap_le_one (keyword_terms query) hit.payload.text
  have hR0 := recency_boost_nonneg today hit.payload.date
  have hR1 := recency_boost_le_one today hit.payload.date
  simp only [enrich, rescore]
  constructor
  · linarith
  · linarith

/-- Witness for C10: the single result of a concrete search satisfies
both score bounds. -/
theorem score_bounds_spec_witness :
    sampleResult.vector_score ≤ sampleResult.score
      ∧ sampleResult.score ≤ sampleResult.vector_score + (0.25 : ℚ) :=
  score_bounds_spec [] ⟨2024, 1, 1⟩ "" 5 [sampleHit] false sampleResult
    (List.mem_singleton_self sampleResult)
